import Mathlib

/-!
Shallow embedding of the audio-relay core of main.py: a bridge between a
telephony media stream (Twilio) and a realtime speech endpoint (OpenAI),
consisting of two forwarding loops, a session-initialization step, and the
bridge lifecycle that runs them.
-/

/-- JSON values, as produced by a successful call to the JSON decoder.
Objects keep their fields as an association list; lookup takes the first
binding, matching decoded-JSON objects whose keys are unique. -/
inductive Json where
  | null
  | bool (b : Bool)
  | num (q : ℚ)
  | str (s : String)
  | arr (elems : List Json)
  | obj (fields : List (String × Json))

mutual

def Json.beq : Json → Json → Bool
  | .null, .null => true
  | .bool a, .bool b => a == b
  | .num a, .num b => decide (a = b)
  | .str a, .str b => a == b
  | .arr a, .arr b => Json.beqList a b
  | .obj a, .obj b => Json.beqFields a b
  | _, _ => false

def Json.beqList (xs ys : List Json) : Bool :=
  match xs, ys with
  | [], [] => true
  | v :: tl, w :: tl' => if Json.beq v w then Json.beqList tl tl' else false
  | _, _ => false

def Json.beqFields (fs gs : List (String × Json)) : Bool :=
  match fs, gs with
  | [], [] => true
  | (ka, va) :: ftl, (kb, vb) :: gtl =>
      if ka = kb then (if Json.beq va vb then Json.beqFields ftl gtl else false)
      else false
  | _, _ => false

end

mutual

def Json.eq_of_beq : ∀ {a b : Json}, Json.beq a b = true → a = b
  | .null, .null, _ => rfl
  | .bool a, .bool b, h => by
      simpa using congrArg Json.bool (of_decide_eq_true (by simpa [Json.beq] using h))
  | .num a, .num b, h => by
      have : a = b := by simpa [Json.beq] using h
      simp [this]
  | .str a, .str b, h => by
      have : a = b := by simpa [Json.beq] using h
      simp [this]
  | .arr a, .arr b, h => by
      have : a = b := Json.eqList_of_beqList (by simpa [Json.beq] using h)
      simp [this]
  | .obj a, .obj b, h => by
      have : a = b := Json.eqFields_of_beqFields (by simpa [Json.beq] using h)
      simp [this]

def Json.eqList_of_beqList : ∀ {a b : List Json}, Json.beqList a b = true → a = b
  | [], [], _ => rfl
  | v :: tl, w :: tl', h => by
      simp only [Json.beqList] at h
      split at h
      · next hvw =>
          have h1 : v = w := Json.eq_of_beq hvw
          have h2 : tl = tl' := Json.eqList_of_beqList h
          simp [h1, h2]
      · exact absurd h (by simp)

def Json.eqFields_of_beqFields :
    ∀ {a b : List (String × Json)}, Json.beqFields a b = true → a = b
  | [], [], _ => rfl
  | (ka, va) :: ftl, (kb, vb) :: gtl, h => by
      simp only [Json.beqFields] at h
      split at h
      · next hk =>
          split at h
          · next hv =>
              have h1 : va = vb := Json.eq_of_beq hv
              have h2 : ftl = gtl := Json.eqFields_of_beqFields h
              simp [hk, h1, h2]
          · exact absurd h (by simp)
      · exact absurd h (by simp)

end

mutual

def Json.beq_self : ∀ a : Json, Json.beq a a = true
  | .null => rfl
  | .bool a => by simp [Json.beq]
  | .num a => by simp [Json.beq]
  | .str a => by simp [Json.beq]
  | .arr a => by simpa [Json.beq] using Json.beqList_self a
  | .obj a => by simpa [Json.beq] using Json.beqFields_self a

def Json.beqList_self : ∀ a : List Json, Json.beqList a a = true
  | [] => rfl
  | v :: tl => by
      simp only [Json.beqList]
      simp [Json.beq_self v, Json.beqList_self tl]

def Json.beqFields_self : ∀ a : List (String × Json), Json.beqFields a a = true
  | [] => rfl
  | (k, v) :: ftl => by
      simp only [Json.beqFields]
      simp [Json.beq_self v, Json.beqFields_self ftl]

end

instance : DecidableEq Json := fun a b =>
  decidable_of_iff (Json.beq a b = true)
    ⟨Json.eq_of_beq, fun h => h ▸ Json.beq_self a⟩

/-- Exceptions the relay code can raise while handling one message. -/
inductive PyError where
  | jsonDecodeError
  | keyError (k : String)
  | typeError
  | attributeError
  | connectionError
deriving DecidableEq

/-- The result of reading one text message: either the JSON decoder fails on
it (a malformed frame) or it yields a JSON value. -/
inductive Decoded where
  | malformed
  | ok (j : Json)
deriving DecidableEq

/-- Field lookup in a JSON object: the value bound to the key, or none when
the key is missing or the value is not an object. This is a statement-level
helper for talking about object fields; the Python expression d.get(k)
itself is Json.get below, which raises on a non-dictionary receiver. -/
def Json.get? : Json → String → Option Json
  | .obj fields, k => fields.lookup k
  | _, _ => none

/-- The Python expression d.get(k): on a dictionary it yields the value or
None for a missing key; on any non-dictionary value (a decoded number,
string, list, boolean or null) the attribute access raises AttributeError. -/
def Json.get : Json → String → Except PyError (Option Json)
  | .obj fields, k => .ok (fields.lookup k)
  | _, _ => .error .attributeError

/-- Subscript dictionary access: the Python expression d[k], which raises
KeyError on a missing key and TypeError on a non-dictionary value. -/
def Json.index : Json → String → Except PyError Json
  | .obj fields, k =>
      match fields.lookup k with
      | some v => .ok v
      | none => .error (.keyError k)
  | _, _ => .error .typeError

/-- Python truthiness of a JSON value: None, False, 0, the empty string and
empty containers are falsy, everything else is truthy. -/
def Json.truthy : Json → Bool
  | .null => false
  | .bool b => b
  | .num q => decide (q ≠ 0)
  | .str s => decide (s ≠ "")
  | .arr elems => !elems.isEmpty
  | .obj fields => !fields.isEmpty

/-- Truthiness of the result of d.get(k): None (missing) is falsy. -/
def truthyOpt : Option Json → Bool
  | none => false
  | some j => j.truthy

/-- json.loads on a received text message. -/
def jsonLoads : Decoded → Except PyError Json
  | .malformed => .error .jsonDecodeError
  | .ok j => .ok j

/-- The behavioral instructions text SYSTEM_MESSAGE of main.py. -/
def SYSTEM_MESSAGE : String :=
  "You are a helpful AI assistant for a call center. Answer in a friendly and natural manner without mechanically listing your features."

/-- The voice identity TTS_VOICE of main.py. -/
def TTS_VOICE : String := "alloy"

/-- The audio_append dictionary built in receive_from_twilio for one media
frame: type input_audio_buffer.append with the audio payload. -/
def audio_append (payload : Json) : Json :=
  .obj [("type", .str "input_audio_buffer.append"), ("audio", payload)]

/-- The media frame dictionary sent in send_to_twilio for one audio delta:
event media with a media.payload field. -/
def media_frame (payload : Json) : Json :=
  .obj [("event", .str "media"), ("media", .obj [("payload", payload)])]

/-- The session_update dictionary built in initialize_session of main.py. -/
def session_update : Json :=
  .obj [("type", .str "session.update"),
        ("session", .obj [
          ("turn_detection", .obj [("type", .str "server_vad")]),
          ("input_audio_format", .str "g711_ulaw"),
          ("output_audio_format", .str "g711_ulaw"),
          ("voice", .str TTS_VOICE),
          ("instructions", .str SYSTEM_MESSAGE),
          ("modalities", .arr [.str "text", .str "audio"]),
          ("temperature", .num (4/5))])]

/-- The environment in which one iteration of the receive_from_twilio loop
runs: the received text as the JSON decoder sees it, whether the realtime
connection is open at that moment (openai_ws.open), and whether a send on the
realtime connection would succeed if attempted. -/
structure InEnv where
  text : Decoded
  aiOpen : Bool
  sendOk : Bool
deriving DecidableEq

/-- The environment of one iteration of the send_to_twilio loop: the received
event text and whether a send on the telephony connection would succeed. -/
structure OutEnv where
  text : Decoded
  sendOk : Bool
deriving DecidableEq

/-- One iteration of the receive_from_twilio loop body of main.py: decode the
message, call data.get on it (raising AttributeError when the decoded value
is not a dictionary); if tagged media while the realtime connection is open,
look up media.payload and send one input_audio_buffer.append event; a start
tag is only logged. The result is the list of messages sent to the realtime
connection (empty or a singleton), or the exception the iteration raises. -/
def receiveStep (e : InEnv) : Except PyError (List Json) :=
  match jsonLoads e.text with
  | .error err => .error err
  | .ok data =>
      match data.get "event" with
      | .error err => .error err
      | .ok ev =>
          if ev = some (Json.str "media") ∧ e.aiOpen = true then
            match data.index "media" with
            | .error err => .error err
            | .ok media =>
                match media.index "payload" with
                | .error err => .error err
                | .ok audioPayload =>
                    if e.sendOk then .ok [audio_append audioPayload]
                    else .error .connectionError
          else .ok []

/-- The body of the receive_from_twilio loop over the whole inbound message
sequence: messages already sent stand when a later iteration raises, and the
first exception aborts the loop. Returns the sent messages together with the
exception that ended the loop, if any. -/
def receiveLoop : List InEnv → List Json × Option PyError
  | [] => ([], none)
  | e :: rest =>
      match receiveStep e with
      | .error err => ([], some err)
      | .ok out =>
          let r := receiveLoop rest
          (out ++ r.1, r.2)

/-- receive_from_twilio of main.py: the try/except wraps the whole loop, so
any exception raised inside is caught and logged and the coroutine returns
normally. The observable value is the sequence of messages sent to the
realtime connection. -/
def receive_from_twilio (envs : List InEnv) : Except PyError (List Json) :=
  .ok (receiveLoop envs).1

/-- One iteration of the send_to_twilio loop body of main.py: decode the
event, call response.get on it (raising AttributeError when the decoded
value is not a dictionary; the second get call is reached only after the
first succeeded, matching the short-circuit and); if its type is
response.audio.delta and its delta field is truthy, send one media frame
wrapping the delta to the telephony connection. -/
def sendStep (e : OutEnv) : Except PyError (List Json) :=
  match jsonLoads e.text with
  | .error err => .error err
  | .ok response =>
      match response.get "type" with
      | .error err => .error err
      | .ok ty =>
          if ty = some (Json.str "response.audio.delta") then
            match response.get "delta" with
            | .error err => .error err
            | .ok deltaOpt =>
                if truthyOpt deltaOpt = true then
                  match response.index "delta" with
                  | .error err => .error err
                  | .ok delta =>
                      if e.sendOk then .ok [media_frame delta]
                      else .error .connectionError
                else .ok []
          else .ok []

/-- The body of the send_to_twilio loop over the whole realtime event
sequence, with the same exception discipline as receiveLoop. -/
def sendLoop : List OutEnv → List Json × Option PyError
  | [] => ([], none)
  | e :: rest =>
      match sendStep e with
      | .error err => ([], some err)
      | .ok out =>
          let r := sendLoop rest
          (out ++ r.1, r.2)

/-- send_to_twilio of main.py: the try/except wraps the whole loop, so the
coroutine always returns normally; the observable value is the sequence of
frames sent to the telephony connection. -/
def send_to_twilio (envs : List OutEnv) : Except PyError (List Json) :=
  .ok (sendLoop envs).1




/-- Observable actions of handle_media_stream, in order of occurrence. The
code never emits closeTwilio: main.py contains no close call on the telephony
connection; closeOpenAI is emitted by the exit of the connection context
manager around the realtime connection. -/
inductive BridgeAction where
  | acceptTwilio
  | connectOpenAI
  | sendOpenAI (msg : Json)
  | sendTwilio (msg : Json)
  | closeOpenAI
  | closeTwilio
deriving DecidableEq

/-- An arbitrary interleaving of two action sequences, chosen by a schedule:
true takes the next action of the first sequence when one remains, false the
next of the second; an exhausted schedule appends what is left. This models
the concurrent scheduling of the two forwarding loops under asyncio.gather. -/
def interleave : List Bool → List BridgeAction → List BridgeAction → List BridgeAction
  | [], xs, ys => xs ++ ys
  | true :: s, x :: xs, ys => x :: interleave s xs ys
  | true :: s, [], ys => interleave s [] ys
  | false :: s, xs, y :: ys => y :: interleave s xs ys
  | false :: s, xs, [] => interleave s xs []

/-- The actions performed by the receive_from_twilio loop: one sendOpenAI per
message it sends to the realtime connection. -/
def inboundTrace (envs : List InEnv) : List BridgeAction :=
  (receiveLoop envs).1.map BridgeAction.sendOpenAI

/-- The actions performed by the send_to_twilio loop: one sendTwilio per
frame it sends to the telephony connection. -/
def outboundTrace (envs : List OutEnv) : List BridgeAction :=
  (sendLoop envs).1.map BridgeAction.sendTwilio

/-- handle_media_stream of main.py as the trace of its observable actions:
accept the telephony connection, open the realtime connection, send the
session_update event (initialize_session), run both forwarding loops under
asyncio.gather in some interleaving until both have finished, and only then
close the realtime connection when the connection context manager exits. -/
def handle_media_stream (sched : List Bool) (ins : List InEnv) (outs : List OutEnv) :
    List BridgeAction :=
  .acceptTwilio :: .connectOpenAI :: .sendOpenAI session_update ::
    (interleave sched (inboundTrace ins) (outboundTrace outs) ++ [.closeOpenAI])

/-- A configuration event: a message sent to the realtime connection whose
type field is session.update. -/
def isConfig : BridgeAction → Bool
  | .sendOpenAI j => decide (j.get? "type" = some (Json.str "session.update"))
  | _ => false

/-- An audio-forwarding action: an append event sent to the realtime
connection, or any frame sent to the telephony connection. -/
def isForward : BridgeAction → Bool
  | .sendOpenAI j => decide (j.get? "type" = some (Json.str "input_audio_buffer.append"))
  | .sendTwilio _ => true
  | _ => false

/-- The action of opening the realtime connection. -/
def isConnect : BridgeAction → Bool
  | .connectOpenAI => true
  | _ => false

/-- The action of closing the realtime connection. -/
def isCloseOpenAI : BridgeAction → Bool
  | .closeOpenAI => true
  | _ => false

/-- The action of closing the telephony connection. -/
def isCloseTwilio : BridgeAction → Bool
  | .closeTwilio => true
  | _ => false

/-- A well-formed inbound message environment: the text decodes to a JSON
object (on anything else the data.get call raises AttributeError), and if it
is a media frame arriving while the realtime connection is open, the frame
has its media.payload field and the send succeeds. -/
def InEnv.wf (e : InEnv) : Bool :=
  match e.text with
  | .malformed => false
  | .ok (.obj fields) =>
      !(decide ((Json.obj fields).get? "event" = some (Json.str "media"))
          && e.aiOpen)
        || ((match (Json.obj fields).get? "media" with
             | some m => (m.get? "payload").isSome
             | none => false)
            && e.sendOk)
  | .ok _ => false

/-- The message that the inbound forwarder is expected to send for one
inbound frame: one append event carrying the media.payload of each frame
tagged media that arrives while the realtime connection is open, nothing for
any other frame. -/
def expectedAppend (e : InEnv) : Option Json :=
  match e.text with
  | .malformed => none
  | .ok j =>
      if j.get? "event" = some (Json.str "media") ∧ e.aiOpen = true then
        match j.get? "media" with
        | some m => (m.get? "payload").map audio_append
        | none => none
      else none

/-- A well-formed realtime event environment: the text decodes to a JSON
object (on anything else the response.get call raises AttributeError), and
if it is an audio delta event with a truthy delta, the send succeeds. -/
def OutEnv.wf (e : OutEnv) : Bool :=
  match e.text with
  | .malformed => false
  | .ok (.obj fields) =>
      !(decide ((Json.obj fields).get? "type"
            = some (Json.str "response.audio.delta"))
          && truthyOpt ((Json.obj fields).get? "delta"))
        || e.sendOk
  | .ok _ => false

/-- The frame that the outbound forwarder is expected to send for one
realtime event: one media frame carrying the delta of each
response.audio.delta event whose delta is truthy, nothing otherwise. -/
def expectedFrame (e : OutEnv) : Option Json :=
  match e.text with
  | .malformed => none
  | .ok j =>
      if j.get? "type" = some (Json.str "response.audio.delta")
          ∧ truthyOpt (j.get? "delta") = true then
        (j.get? "delta").map media_frame
      else none

theorem Json.get_obj (fields : List (String × Json)) (k : String) :
    (Json.obj fields).get k = .ok ((Json.obj fields).get? k) := rfl

theorem Json.index_of_get?_some {j : Json} {k : String} {v : Json}
    (h : j.get? k = some v) : j.index k = .ok v := by
  cases j <;> simp [Json.get?] at h
  simp [Json.index, h]

theorem receiveStep_wf {e : InEnv} (h : e.wf = true) :
    receiveStep e = .ok (expectedAppend e).toList := by
  obtain ⟨t, ai, sk⟩ := e
  cases t with
  | malformed => simp [InEnv.wf] at h
  | ok j =>
      cases j with
      | null => simp [InEnv.wf] at h
      | bool b => simp [InEnv.wf] at h
      | num q => simp [InEnv.wf] at h
      | str st => simp [InEnv.wf] at h
      | arr elems => simp [InEnv.wf] at h
      | obj fields =>
          simp only [receiveStep, expectedAppend, jsonLoads, Json.get_obj]
          split
          next hcond =>
            obtain ⟨hev, hai⟩ := hcond
            cases hm : (Json.obj fields).get? "media" with
            | none => simp [InEnv.wf, hev, hai, hm] at h
            | some m =>
                cases hp : m.get? "payload" with
                | none => simp [InEnv.wf, hev, hai, hm, hp] at h
                | some p =>
                    have hsk : sk = true := by
                      simpa [InEnv.wf, hev, hai, hm, hp] using h
                    simp [Json.index_of_get?_some hm, Json.index_of_get?_some hp,
                      hsk, hp]
          next => simp

theorem receiveLoop_wf {envs : List InEnv} (h : ∀ e ∈ envs, e.wf = true) :
    receiveLoop envs = (envs.filterMap expectedAppend, none) := by
  induction envs with
  | nil => simp [receiveLoop]
  | cons e rest ih =>
      have he := receiveStep_wf (h e (by simp))
      have hrest := ih fun x hx => h x (by simp [hx])
      simp only [receiveLoop, he, hrest, List.filterMap_cons]
      cases hea : expectedAppend e <;> simp [hea]

theorem sendStep_wf {e : OutEnv} (h : e.wf = true) :
    sendStep e = .ok (expectedFrame e).toList := by
  obtain ⟨t, sk⟩ := e
  cases t with
  | malformed => simp [OutEnv.wf] at h
  | ok j =>
      cases j with
      | null => simp [OutEnv.wf] at h
      | bool b => simp [OutEnv.wf] at h
      | num q => simp [OutEnv.wf] at h
      | str st => simp [OutEnv.wf] at h
      | arr elems => simp [OutEnv.wf] at h
      | obj fields =>
          simp only [sendStep, jsonLoads, Json.get_obj]
          split
          next hty =>
            split
            next htr =>
              cases hd : (Json.obj fields).get? "delta" with
              | none => rw [hd] at htr; simp [truthyOpt] at htr
              | some d =>
                  have hsk : sk = true := by
                    simpa [OutEnv.wf, hty, htr] using h
                  rw [hd] at htr
                  simp [Json.index_of_get?_some hd, hsk, expectedFrame,
                    hty, hd, htr]
            next htr =>
              simp [expectedFrame, hty, htr]
          next hty =>
            simp [expectedFrame, hty]

theorem sendLoop_wf {envs : List OutEnv} (h : ∀ e ∈ envs, e.wf = true) :
    sendLoop envs = (envs.filterMap expectedFrame, none) := by
  induction envs with
  | nil => simp [sendLoop]
  | cons e rest ih =>
      have he := sendStep_wf (h e (by simp))
      have hrest := ih fun x hx => h x (by simp [hx])
      simp only [sendLoop, he, hrest, List.filterMap_cons]
      cases hef : expectedFrame e <;> simp [hef]

theorem receiveStep_shape {e : InEnv} {out : List Json}
    (h : receiveStep e = .ok out) : out = [] ∨ ∃ p, out = [audio_append p] := by
  unfold receiveStep at h
  cases ht : e.text with
  | malformed => rw [ht] at h; simp [jsonLoads] at h
  | ok j =>
      rw [ht] at h
      simp only [jsonLoads] at h
      split at h
      · simp at h
      · split at h
        · split at h
          · simp at h
          · split at h
            · simp at h
            · split at h
              · right
                exact ⟨_, by injection h with h'; rw [← h']⟩
              · simp at h
        · left
          injection h with h'
          rw [← h']

theorem sendStep_shape {e : OutEnv} {out : List Json}
    (h : sendStep e = .ok out) : out = [] ∨ ∃ p, out = [media_frame p] := by
  unfold sendStep at h
  cases ht : e.text with
  | malformed => rw [ht] at h; simp [jsonLoads] at h
  | ok j =>
      rw [ht] at h
      simp only [jsonLoads] at h
      split at h
      · simp at h
      · split at h
        · split at h
          · simp at h
          · split at h
            · split at h
              · simp at h
              · split at h
                · right
                  exact ⟨_, by injection h with h'; rw [← h']⟩
                · simp at h
            · left
              injection h with h'
              rw [← h']
        · left
          injection h with h'
          rw [← h']

theorem receiveLoop_mem {envs : List InEnv} {j : Json}
    (h : j ∈ (receiveLoop envs).1) : ∃ p, j = audio_append p := by
  induction envs with
  | nil => simp [receiveLoop] at h
  | cons e rest ih =>
      simp only [receiveLoop] at h
      cases hs : receiveStep e with
      | error err => rw [hs] at h; simp at h
      | ok out =>
          rw [hs] at h
          simp only [List.mem_append] at h
          rcases h with h | h
          · rcases receiveStep_shape hs with h0 | ⟨p, hp⟩
            · rw [h0] at h; simp at h
            · rw [hp] at h
              simp only [List.mem_singleton] at h
              exact ⟨p, h⟩
          · exact ih h

theorem sendLoop_mem {envs : List OutEnv} {j : Json}
    (h : j ∈ (sendLoop envs).1) : ∃ p, j = media_frame p := by
  induction envs with
  | nil => simp [sendLoop] at h
  | cons e rest ih =>
      simp only [sendLoop] at h
      cases hs : sendStep e with
      | error err => rw [hs] at h; simp at h
      | ok out =>
          rw [hs] at h
          simp only [List.mem_append] at h
          rcases h with h | h
          · rcases sendStep_shape hs with h0 | ⟨p, hp⟩
            · rw [h0] at h; simp at h
            · rw [hp] at h
              simp only [List.mem_singleton] at h
              exact ⟨p, h⟩
          · exact ih h

theorem countP_interleave (p : BridgeAction → Bool) :
    ∀ (s : List Bool) (xs ys : List BridgeAction),
      (interleave s xs ys).countP p = xs.countP p + ys.countP p := by
  intro s
  induction s with
  | nil => intro xs ys; simp [interleave, List.countP_append]
  | cons b s ih =>
      intro xs ys
      cases b
      · cases ys with
        | nil => simp [interleave, ih]
        | cons y ys =>
            simp only [interleave, List.countP_cons, ih]
            omega
      · cases xs with
        | nil => simp [interleave, ih]
        | cons x xs =>
            simp only [interleave, List.countP_cons, ih]
            omega

theorem mem_interleave {a : BridgeAction} :
    ∀ (s : List Bool) (xs ys : List BridgeAction),
      a ∈ interleave s xs ys → a ∈ xs ∨ a ∈ ys := by
  intro s
  induction s with
  | nil => intro xs ys h; exact List.mem_append.mp h
  | cons b s ih =>
      intro xs ys h
      cases b
      · cases ys with
        | nil =>
            rcases ih xs [] h with h | h
            · exact Or.inl h
            · simp at h
        | cons y ys =>
            simp only [interleave, List.mem_cons] at h
            rcases h with h | h
            · exact Or.inr (by simp [h])
            · rcases ih xs ys h with h | h
              · exact Or.inl h
              · exact Or.inr (by simp [h])
      · cases xs with
        | nil =>
            rcases ih [] ys h with h | h
            · simp at h
            · exact Or.inr h
        | cons x xs =>
            simp only [interleave, List.mem_cons] at h
            rcases h with h | h
            · exact Or.inl (by simp [h])
            · rcases ih xs ys h with h | h
              · exact Or.inl (by simp [h])
              · exact Or.inr h

theorem inboundTrace_countP_eq_zero (ins : List InEnv) (p : BridgeAction → Bool)
    (hp : ∀ j ∈ (receiveLoop ins).1, p (BridgeAction.sendOpenAI j) = false) :
    (inboundTrace ins).countP p = 0 := by
  rw [List.countP_eq_zero]
  intro a ha
  simp only [inboundTrace, List.mem_map] at ha
  obtain ⟨j, hj, rfl⟩ := ha
  simp [hp j hj]

theorem outboundTrace_countP_eq_zero (outs : List OutEnv) (p : BridgeAction → Bool)
    (hp : ∀ j ∈ (sendLoop outs).1, p (BridgeAction.sendTwilio j) = false) :
    (outboundTrace outs).countP p = 0 := by
  rw [List.countP_eq_zero]
  intro a ha
  simp only [outboundTrace, List.mem_map] at ha
  obtain ⟨j, hj, rfl⟩ := ha
  simp [hp j hj]

/-- Claim C1: while the realtime connection is open, every inbound frame
tagged media causes exactly one input_audio_buffer.append event on the
realtime connection, whose audio field is exactly the media.payload of the
frame, and the append events occur in receipt order of the frames, one per
frame, with no batching or duplication. Formally: over any well-formed
inbound sequence, the messages sent to the realtime connection are exactly
the filterMap of expectedAppend, which yields one audio_append of the
media.payload for each media-tagged frame that arrives while the connection
is open and nothing for any other frame. -/
theorem C1_media_forwarded_in_order (envs : List InEnv)
    (h : ∀ e ∈ envs, e.wf = true) :
    receive_from_twilio envs = .ok (envs.filterMap expectedAppend) := by
  simp [receive_from_twilio, receiveLoop_wf h]

theorem C1_media_forwarded_in_order_witness :
    receive_from_twilio
      [⟨.ok (.obj [("event", .str "start")]), true, true⟩,
       ⟨.ok (.obj [("event", .str "media"),
                   ("media", .obj [("payload", .str "AAAA")])]), true, true⟩,
       ⟨.ok (.obj [("event", .str "media"),
                   ("media", .obj [("payload", .str "CCCC")])]), true, true⟩]
      = .ok [audio_append (.str "AAAA"), audio_append (.str "CCCC")] :=
  (C1_media_forwarded_in_order _ (by decide)).trans (by rfl)

/-- Claim C2: every realtime event of type response.audio.delta carrying a
non-empty delta produces exactly one telephony frame of shape
event media with media.payload equal byte-for-byte to the delta, in receipt
order. Formally: over any well-formed realtime event sequence, the frames
sent to the telephony connection are exactly the filterMap of expectedFrame,
which yields one media_frame of the delta for each audio-delta event with a
truthy delta and nothing for any other event. -/
theorem C2_deltas_forwarded_in_order (envs : List OutEnv)
    (h : ∀ e ∈ envs, e.wf = true) :
    send_to_twilio envs = .ok (envs.filterMap expectedFrame) := by
  simp [send_to_twilio, sendLoop_wf h]

theorem C2_deltas_forwarded_in_order_witness :
    send_to_twilio
      [⟨.ok (.obj [("type", .str "response.audio.delta"),
                   ("delta", .str "BBBB")]), true⟩,
       ⟨.ok (.obj [("type", .str "response.created")]), true⟩,
       ⟨.ok (.obj [("type", .str "response.audio.delta"),
                   ("delta", .str "DDDD")]), true⟩]
      = .ok [media_frame (.str "BBBB"), media_frame (.str "DDDD")] :=
  (C2_deltas_forwarded_in_order _ (by decide)).trans (by rfl)

/-- Claim C5: an inbound frame tagged media that arrives while the realtime
connection is closed is silently dropped: the iteration sends nothing and
raises nothing, and the loop processes the remaining frames exactly as it
would have without this frame (in particular nothing is buffered for later
delivery). -/
theorem C5_media_dropped_when_closed (j : Json) (sk : Bool) (rest : List InEnv)
    (hmedia : j.get? "event" = some (Json.str "media")) :
    receiveStep ⟨Decoded.ok j, false, sk⟩ = .ok [] ∧
    receiveLoop (⟨Decoded.ok j, false, sk⟩ :: rest) = receiveLoop rest ∧
    receive_from_twilio (⟨Decoded.ok j, false, sk⟩ :: rest)
      = receive_from_twilio rest := by
  obtain ⟨fields, rfl⟩ : ∃ fields, j = Json.obj fields := by
    cases j with
    | obj fields => exact ⟨fields, rfl⟩
    | null => simp [Json.get?] at hmedia
    | bool b => simp [Json.get?] at hmedia
    | num q => simp [Json.get?] at hmedia
    | str st => simp [Json.get?] at hmedia
    | arr elems => simp [Json.get?] at hmedia
  have hstep : receiveStep ⟨Decoded.ok (Json.obj fields), false, sk⟩ = .ok [] := by
    simp [receiveStep, jsonLoads, Json.get_obj]
  exact ⟨hstep, by simp [receiveLoop, hstep],
    by simp [receive_from_twilio, receiveLoop, hstep]⟩

theorem C5_media_dropped_when_closed_witness :
    receiveStep ⟨Decoded.ok (.obj [("event", .str "media"),
        ("media", .obj [("payload", .str "AAAA")])]), false, true⟩ = .ok [] ∧
    receiveLoop [⟨Decoded.ok (.obj [("event", .str "media"),
        ("media", .obj [("payload", .str "AAAA")])]), false, true⟩]
      = receiveLoop [] ∧
    receive_from_twilio [⟨Decoded.ok (.obj [("event", .str "media"),
        ("media", .obj [("payload", .str "AAAA")])]), false, true⟩]
      = receive_from_twilio [] :=
  C5_media_dropped_when_closed _ true [] (by rfl)

/-- Claim C6: a realtime event (a decoded JSON object, the only shape whose
type tag the code can read without raising) whose type tag is not
response.audio.delta causes no frame to be sent to the telephony connection
and does not terminate the forwarding loop: the loop processes the remaining
events exactly as it would have without this event. -/
theorem C6_other_types_ignored (fields : List (String × Json)) (sk : Bool)
    (rest : List OutEnv)
    (hty : (Json.obj fields).get? "type"
      ≠ some (Json.str "response.audio.delta")) :
    sendStep ⟨Decoded.ok (Json.obj fields), sk⟩ = .ok [] ∧
    sendLoop (⟨Decoded.ok (Json.obj fields), sk⟩ :: rest) = sendLoop rest ∧
    send_to_twilio (⟨Decoded.ok (Json.obj fields), sk⟩ :: rest)
      = send_to_twilio rest := by
  have hstep : sendStep ⟨Decoded.ok (Json.obj fields), sk⟩ = .ok [] := by
    simp only [sendStep, jsonLoads, Json.get_obj, if_neg hty]
  exact ⟨hstep, by simp [sendLoop, hstep],
    by simp [send_to_twilio, sendLoop, hstep]⟩

theorem C6_other_types_ignored_witness :
    sendStep ⟨Decoded.ok (.obj [("type", .str "response.created")]), true⟩
      = .ok [] ∧
    sendLoop [⟨Decoded.ok (.obj [("type", .str "response.created")]), true⟩]
      = sendLoop [] ∧
    send_to_twilio [⟨Decoded.ok (.obj [("type", .str "response.created")]), true⟩]
      = send_to_twilio [] :=
  C6_other_types_ignored [("type", Json.str "response.created")] true []
    (by decide)

/-- Claim C10: a realtime event of type response.audio.delta whose delta
field is absent or the empty string causes no frame to be sent and raises no
error: the loop processes the remaining events exactly as it would have
without this event. -/
theorem C10_empty_delta_ignored (j : Json) (sk : Bool) (rest : List OutEnv)
    (hty : j.get? "type" = some (Json.str "response.audio.delta"))
    (hdel : j.get? "delta" = none ∨ j.get? "delta" = some (Json.str "")) :
    sendStep ⟨Decoded.ok j, sk⟩ = .ok [] ∧
    sendLoop (⟨Decoded.ok j, sk⟩ :: rest) = sendLoop rest ∧
    send_to_twilio (⟨Decoded.ok j, sk⟩ :: rest) = send_to_twilio rest := by
  obtain ⟨fields, rfl⟩ : ∃ fields, j = Json.obj fields := by
    cases j with
    | obj fields => exact ⟨fields, rfl⟩
    | null => simp [Json.get?] at hty
    | bool b => simp [Json.get?] at hty
    | num q => simp [Json.get?] at hty
    | str st => simp [Json.get?] at hty
    | arr elems => simp [Json.get?] at hty
  have hfalsy : truthyOpt ((Json.obj fields).get? "delta") = false := by
    rcases hdel with h | h
    · simp [h, truthyOpt]
    · simp [h, truthyOpt, Json.truthy]
  have hstep : sendStep ⟨Decoded.ok (Json.obj fields), sk⟩ = .ok [] := by
    simp [sendStep, jsonLoads, Json.get_obj, hty, hfalsy]
  exact ⟨hstep, by simp [sendLoop, hstep],
    by simp [send_to_twilio, sendLoop, hstep]⟩

theorem C10_empty_delta_ignored_witness :
    sendStep ⟨Decoded.ok (.obj [("type", .str "response.audio.delta")]), true⟩
      = .ok [] ∧
    sendLoop [⟨Decoded.ok (.obj [("type", .str "response.audio.delta")]), true⟩]
      = sendLoop [] ∧
    send_to_twilio [⟨Decoded.ok (.obj [("type", .str "response.audio.delta")]), true⟩]
      = send_to_twilio [] :=
  C10_empty_delta_ignored _ true [] (by rfl) (Or.inl (by rfl))

/-- Claim C9: neither forwarding loop ever propagates an exception to the
bridge: for every inbound sequence and every realtime event sequence,
including sequences containing malformed messages and failing sends, both
coroutines return normally, so the concurrent join of the two loops never
observes a failure. -/
theorem C9_loops_never_raise (ins : List InEnv) (outs : List OutEnv) :
    (∃ sent, receive_from_twilio ins = Except.ok sent) ∧
    (∃ sent, send_to_twilio outs = Except.ok sent) :=
  ⟨⟨(receiveLoop ins).1, rfl⟩, ⟨(sendLoop outs).1, rfl⟩⟩

/-- Claim C7: exactly one configuration event of type session.update is sent
to the realtime connection, at position 2 of the bridge trace, before either
forwarding loop contributes any action, and it carries turn_detection.type
server_vad, input and output audio format g711_ulaw, the voice identity, the
behavioral instructions text, modalities text and audio, and the fixed
temperature 4/5; no other configuration event occurs anywhere in the trace,
for any schedule and any message sequences. -/
theorem C7_session_update_sent_once (sched : List Bool) (ins : List InEnv)
    (outs : List OutEnv) :
    (handle_media_stream sched ins outs).countP isConfig = 1 ∧
    (handle_media_stream sched ins outs).take 3 =
      [BridgeAction.acceptTwilio, BridgeAction.connectOpenAI,
       BridgeAction.sendOpenAI session_update] ∧
    session_update.get? "type" = some (Json.str "session.update") ∧
    ((session_update.get? "session").bind (fun s => s.get? "turn_detection")).bind
        (fun td => td.get? "type") = some (Json.str "server_vad") ∧
    (session_update.get? "session").bind (fun s => s.get? "input_audio_format")
      = some (Json.str "g711_ulaw") ∧
    (session_update.get? "session").bind (fun s => s.get? "output_audio_format")
      = some (Json.str "g711_ulaw") ∧
    (session_update.get? "session").bind (fun s => s.get? "voice")
      = some (Json.str TTS_VOICE) ∧
    (session_update.get? "session").bind (fun s => s.get? "instructions")
      = some (Json.str SYSTEM_MESSAGE) ∧
    (session_update.get? "session").bind (fun s => s.get? "modalities")
      = some (Json.arr [Json.str "text", Json.str "audio"]) ∧
    (session_update.get? "session").bind (fun s => s.get? "temperature")
      = some (Json.num (4/5)) := by
  refine ⟨?_, rfl, rfl, rfl, rfl, rfl, rfl, rfl, rfl, rfl⟩
  have hin : (inboundTrace ins).countP isConfig = 0 := by
    refine inboundTrace_countP_eq_zero ins isConfig ?_
    intro j hj
    obtain ⟨p, rfl⟩ := receiveLoop_mem hj
    rfl
  have hout : (outboundTrace outs).countP isConfig = 0 :=
    outboundTrace_countP_eq_zero outs isConfig (fun j _ => rfl)
  have hc1 : isConfig BridgeAction.acceptTwilio = false := rfl
  have hc2 : isConfig BridgeAction.connectOpenAI = false := rfl
  have hc3 : isConfig (BridgeAction.sendOpenAI session_update) = true := rfl
  have hc4 : isConfig BridgeAction.closeOpenAI = false := rfl
  simp [handle_media_stream, List.countP_cons, List.countP_append,
        countP_interleave, hin, hout, hc1, hc2, hc3, hc4]

/-- Claim C8: for every accepted telephony connection, the bridge trace
contains exactly one opening of a realtime connection, placed directly after
the acceptance and before any audio-forwarding action, for any schedule and
any message sequences; the count of one over the whole trace means the
pairing is never replaced or re-established. -/
theorem C8_one_realtime_connection (sched : List Bool) (ins : List InEnv)
    (outs : List OutEnv) :
    (handle_media_stream sched ins outs).countP isConnect = 1 ∧
    (handle_media_stream sched ins outs).take 2 =
      [BridgeAction.acceptTwilio, BridgeAction.connectOpenAI] ∧
    (handle_media_stream sched ins outs).countP isForward =
      ((handle_media_stream sched ins outs).drop 2).countP isForward := by
  refine ⟨?_, rfl, ?_⟩
  · have hin : (inboundTrace ins).countP isConnect = 0 :=
      inboundTrace_countP_eq_zero ins isConnect (fun j _ => rfl)
    have hout : (outboundTrace outs).countP isConnect = 0 :=
      outboundTrace_countP_eq_zero outs isConnect (fun j _ => rfl)
    simp [handle_media_stream, List.countP_cons, List.countP_append,
          countP_interleave, hin, hout, isConnect]
  · have hv : (handle_media_stream sched ins outs).drop 2
        = BridgeAction.sendOpenAI session_update ::
          (interleave sched (inboundTrace ins) (outboundTrace outs)
            ++ [BridgeAction.closeOpenAI]) := rfl
    rw [hv]
    simp [handle_media_stream, List.countP_cons, isForward]

/-- Claim C4 (amended): the bridge closes the realtime connection exactly
once, as the very last action of the session, only after both forwarding
loops have contributed all their actions, and it never closes the telephony
connection; when one loop exits, no close of the counterpart connection
occurs at that point. -/
theorem C4_amended_close_only_after_both_loops (sched : List Bool)
    (ins : List InEnv) (outs : List OutEnv) :
    (handle_media_stream sched ins outs).countP isCloseTwilio = 0 ∧
    (handle_media_stream sched ins outs).getLast? = some BridgeAction.closeOpenAI ∧
    (handle_media_stream sched ins outs).dropLast.countP isCloseOpenAI = 0 := by
  have hview : handle_media_stream sched ins outs
      = (BridgeAction.acceptTwilio :: BridgeAction.connectOpenAI ::
          BridgeAction.sendOpenAI session_update ::
          interleave sched (inboundTrace ins) (outboundTrace outs))
        ++ [BridgeAction.closeOpenAI] := rfl
  refine ⟨?_, ?_, ?_⟩
  · have hin : (inboundTrace ins).countP isCloseTwilio = 0 :=
      inboundTrace_countP_eq_zero ins isCloseTwilio (fun j _ => rfl)
    have hout : (outboundTrace outs).countP isCloseTwilio = 0 :=
      outboundTrace_countP_eq_zero outs isCloseTwilio (fun j _ => rfl)
    simp [handle_media_stream, List.countP_cons, List.countP_append,
          countP_interleave, hin, hout, isCloseTwilio]
  · rw [hview]
    exact List.getLast?_concat _
  · rw [hview, List.dropLast_concat]
    have hin : (inboundTrace ins).countP isCloseOpenAI = 0 :=
      inboundTrace_countP_eq_zero ins isCloseOpenAI (fun j _ => rfl)
    have hout : (outboundTrace outs).countP isCloseOpenAI = 0 :=
      outboundTrace_countP_eq_zero outs isCloseOpenAI (fun j _ => rfl)
    simp [List.countP_cons, countP_interleave, hin, hout, isCloseOpenAI]

/-- Claim C4 counterexample: a session whose telephony stream is already
finished (the inbound loop exits immediately with no actions) while the
realtime side still delivers one audio delta. The claim requires the bridge
to close the counterpart realtime connection when the inbound loop exits, so
that the outbound loop unblocks and forwards nothing further; instead the
trace shows the outbound loop still forwarding the delta to the telephony
connection before any close, the realtime connection closed only at the very
end, and the telephony connection never closed at all. -/
theorem C4_counterexample :
    handle_media_stream [] []
      [⟨Decoded.ok (Json.obj [("type", Json.str "response.audio.delta"),
                              ("delta", Json.str "BBBB")]), true⟩] =
      [BridgeAction.acceptTwilio, BridgeAction.connectOpenAI,
       BridgeAction.sendOpenAI session_update,
       BridgeAction.sendTwilio (media_frame (Json.str "BBBB")),
       BridgeAction.closeOpenAI] ∧
    (handle_media_stream [] []
      [⟨Decoded.ok (Json.obj [("type", Json.str "response.audio.delta"),
                              ("delta", Json.str "BBBB")]), true⟩]).countP
      isCloseTwilio = 0 :=
  ⟨rfl, rfl⟩

theorem receiveLoop_append_error (bad : InEnv) (post : List InEnv) (err : PyError) :
    ∀ pre : List InEnv, (receiveLoop pre).2 = none →
      receiveStep bad = .error err →
      receiveLoop (pre ++ bad :: post) = ((receiveLoop pre).1, some err) := by
  intro pre
  induction pre with
  | nil => intro _ hbad; simp [receiveLoop, hbad]
  | cons e pre ih =>
      intro hpre hbad
      cases hs : receiveStep e with
      | error e' =>
          simp only [receiveLoop, hs] at hpre
          exact Option.noConfusion hpre
      | ok out =>
          have hpre' : (receiveLoop pre).2 = none := by
            simpa only [receiveLoop, hs] using hpre
          have hrec := ih hpre' hbad
          simp [receiveLoop, hs, hrec]

/-- Claim C3 counterexample: the inbound sequence consisting of a malformed
text followed by a fully valid media frame, with the realtime connection
open. The claim requires the loop to continue past the malformed frame and
still forward the following valid media frame; instead nothing at all is
forwarded, while the same valid frame alone is forwarded, showing that the
malformed frame terminated the loop. -/
theorem C3_counterexample :
    receive_from_twilio
      [⟨Decoded.malformed, true, true⟩,
       ⟨Decoded.ok (Json.obj [("event", Json.str "media"),
           ("media", Json.obj [("payload", Json.str "AAAA")])]), true, true⟩]
      = .ok [] ∧
    InEnv.wf ⟨Decoded.ok (Json.obj [("event", Json.str "media"),
        ("media", Json.obj [("payload", Json.str "AAAA")])]), true, true⟩ = true ∧
    receive_from_twilio
      [⟨Decoded.ok (Json.obj [("event", Json.str "media"),
          ("media", Json.obj [("payload", Json.str "AAAA")])]), true, true⟩]
      = .ok [audio_append (Json.str "AAAA")] :=
  ⟨rfl, rfl, rfl⟩

/-- Claim C3 (amended): a malformed inbound frame (text that fails decoding,
or a media frame missing its payload while the realtime connection is open)
does not propagate an error to the bridge: the exception is caught and
logged and the coroutine returns normally, carrying exactly the messages
forwarded before the malformed frame. However the malformed frame terminates
the inbound loop: no frame after it, valid or not, is processed or
forwarded. -/
theorem C3_amended_error_caught_but_loop_ends (pre : List InEnv) (bad : InEnv)
    (post : List InEnv) (err : PyError)
    (hpre : (receiveLoop pre).2 = none)
    (hbad : receiveStep bad = .error err) :
    receive_from_twilio (pre ++ bad :: post) = .ok (receiveLoop pre).1 ∧
    (receiveLoop (pre ++ bad :: post)).2 = some err := by
  have h := receiveLoop_append_error bad post err pre hpre hbad
  exact ⟨by simp [receive_from_twilio, h], by simp [h]⟩

theorem C3_amended_error_caught_but_loop_ends_witness :
    receive_from_twilio
      ([⟨Decoded.ok (Json.obj [("event", Json.str "start")]), true, true⟩]
        ++ ⟨Decoded.malformed, true, true⟩ ::
          [⟨Decoded.ok (Json.obj [("event", Json.str "media"),
              ("media", Json.obj [("payload", Json.str "AAAA")])]), true, true⟩])
      = .ok (receiveLoop
          [⟨Decoded.ok (Json.obj [("event", Json.str "start")]), true, true⟩]).1 ∧
    (receiveLoop
      ([⟨Decoded.ok (Json.obj [("event", Json.str "start")]), true, true⟩]
        ++ ⟨Decoded.malformed, true, true⟩ ::
          [⟨Decoded.ok (Json.obj [("event", Json.str "media"),
              ("media", Json.obj [("payload", Json.str "AAAA")])]), true, true⟩])).2
      = some PyError.jsonDecodeError :=
  C3_amended_error_caught_but_loop_ends
    [⟨Decoded.ok (Json.obj [("event", Json.str "start")]), true, true⟩]
    ⟨Decoded.malformed, true, true⟩
    [⟨Decoded.ok (Json.obj [("event", Json.str "media"),
        ("media", Json.obj [("payload", Json.str "AAAA")])]), true, true⟩]
    PyError.jsonDecodeError (by rfl) (by rfl)
